import Mathlib

/-
Verification of the DoGPDA procedural-texture pipeline.

Shallow embedding of `src/src/js/DoGBumpMapper.js` (Gaussian kernel
generation and caching, separable Gaussian blur with mirror boundary
handling, difference of Gaussians, bump-value policy), of the
`BumpToNormalMapper` class (gradient stencils, vector lift,
normalization, RGB encoding) and of the option-record constructors of
`DoGBumpMapper` and `BumpToNormalPDA`.

Conventions:
* JavaScript numbers are modelled as real numbers.  `JsVal := Option ℝ`
  models a numeric value that may be `undefined` or `NaN`: reading a
  typed array out of bounds yields `undefined`, and any arithmetic on
  `undefined` or `NaN` yields `NaN`; both are absorbing, which `none`
  models.  Storing a value into a `Uint8ClampedArray` turns `NaN` into
  `0` and clamps to `[0, 255]` (`uint8Clamp`).  The byte rounding of
  `Uint8ClampedArray` is not modelled: stored values stay real.
* An `ImageData` is a flat RGBA array indexed by integers, exactly as
  the JavaScript code indexes it, so an out-of-range computed index
  (negative, or at or past the end) reads `none`, and the row-wrapping
  of a negative x-offset into the previous row is reproduced faithfully.
* `Math.exp` and `Math.sqrt` are `Real.exp` and `Real.sqrt`, hence the
  section is noncomputable; all index arithmetic stays computable.
-/

noncomputable section

/- JavaScript numeric values; `none` stands for undefined/NaN. -/

abbrev JsVal := Option ℝ

def jadd : JsVal → JsVal → JsVal
  | some a, some b => some (a + b)
  | _, _ => none

def jsub : JsVal → JsVal → JsVal
  | some a, some b => some (a - b)
  | _, _ => none

def jmulW (v : JsVal) (w : ℝ) : JsVal := Option.map (fun a => a * w) v

def jabs (v : JsVal) : JsVal := Option.map (fun a => |a|) v

def jdivC (v : JsVal) (c : ℝ) : JsVal := Option.map (fun a => a / c) v

def jmax (a : ℝ) (v : JsVal) : JsVal := Option.map (fun b => max a b) v

def jmin (a : ℝ) (v : JsVal) : JsVal := Option.map (fun b => min a b) v

/- Store into a `Uint8ClampedArray` cell: `NaN` becomes 0, values clamp
to `[0, 255]` (byte rounding not modelled). -/
def uint8Clamp : JsVal → ℝ
  | none => 0
  | some v => min 255 (max 0 v)

/- The accumulator pattern `let r = 0; for (...) r += term`. -/
def jsum (l : List JsVal) : JsVal := l.foldl jadd (some 0)

/- Flat RGBA pixel buffer, indexed like the JavaScript typed array. -/
structure ImageData where
  width : ℕ
  height : ℕ
  data : ℤ → JsVal

/- Read channel `c` of pixel `(x, y)`: index `(y*width + x)*4 + c`. -/
def ImageData.pix (img : ImageData) (x y c : ℕ) : JsVal :=
  img.data (((y * img.width + x) * 4 + c : ℕ) : ℤ)

/- Channel selector for a uniform-color test image. -/
def chanVal (r g b a : ℝ) (m : ℕ) : ℝ :=
  if m = 0 then r else if m = 1 then g else if m = 2 then b else a

/- A w×h image whose every pixel is the RGBA color (r, g, b, a). -/
def uniformImage (w h : ℕ) (r g b a : ℝ) : ImageData :=
  ⟨w, h, fun idx =>
    if 0 ≤ idx ∧ idx < 4 * w * h then some (chanVal r g b a (idx.toNat % 4)) else none⟩

/- DoGBumpMapper._generateGaussianKernel: raw weight
`exp(-(x*x) / (2*sigma*sigma))` with `x = i - floor(size/2)`. -/
def gaussianRaw (sigma : ℝ) (size i : ℕ) : ℝ :=
  Real.exp (-(((i : ℝ) - ((size / 2 : ℕ) : ℝ)) * ((i : ℝ) - ((size / 2 : ℕ) : ℝ)))
    / (2 * sigma * sigma))

def gaussianRawSum (sigma : ℝ) (size : ℕ) : ℝ :=
  ((List.range size).map (gaussianRaw sigma size)).sum

/- Normalize by the sum, or fall back to the uniform kernel 1/size when
the sum is below the epsilon 0.00001. -/
def generateGaussianKernel (sigma : ℝ) (size : ℕ) : ℕ → ℝ :=
  fun i =>
    if gaussianRawSum sigma size < 0.00001 then 1.0 / (size : ℝ)
    else gaussianRaw sigma size i / gaussianRawSum sigma size

/- DoGBumpMapper._getGaussianKernel: the kernel cache.  The source keys
the `Map` by the template string `sigma_size`; identical `(sigma, size)`
pairs produce identical key strings, so the key is modelled as the pair
itself.  The third component of the result instruments which branch
ran: `true` when a kernel was freshly generated, `false` on a cache hit
(the source generates only in the miss branch). -/
def cacheLookup : List ((ℝ × ℕ) × (ℕ → ℝ)) → ℝ × ℕ → Option (ℕ → ℝ)
  | [], _ => none
  | e :: rest, key => if e.1 = key then some e.2 else cacheLookup rest key

def getGaussianKernel (cache : List ((ℝ × ℕ) × (ℕ → ℝ))) (sigma : ℝ) (size : ℕ) :
    (ℕ → ℝ) × List ((ℝ × ℕ) × (ℕ → ℝ)) × Bool :=
  match cacheLookup cache (sigma, size) with
  | some k => (k, cache, false)
  | none =>
      let k := generateGaussianKernel sigma size
      (k, cache ++ [((sigma, size), k)], true)

/- DoGBumpMapper._applyGaussianBlur: kernel size
`max(3, ceil(sigma*6))`, forced odd, half width `floor(size/2)`. -/
def kernelSize (sigma : ℝ) : ℕ := max 3 (Int.toNat ⌈sigma * 6⌉)

def kernelSizeOdd (sigma : ℝ) : ℕ :=
  if kernelSize sigma % 2 = 0 then kernelSize sigma + 1 else kernelSize sigma

def halfSize (sigma : ℝ) : ℕ := kernelSizeOdd sigma / 2

/- The loop offsets `i = -halfSize .. halfSize`. -/
def taps (half : ℕ) : List ℤ :=
  (List.range (2 * half + 1)).map (fun k : ℕ => (k : ℤ) - (half : ℤ))

/- `kernel[i + halfSize]`, the weight the loop pairs with tap `i`. -/
def kernelAt (sigma : ℝ) (i : ℤ) : ℝ :=
  generateGaussianKernel sigma (kernelSizeOdd sigma) ((i + (halfSize sigma : ℤ)).toNat)

/- `weightSum` accumulated by the convolution loop: every tap adds its
kernel weight, regardless of where the mirrored index landed. -/
def weightSumAt (sigma : ℝ) : ℝ :=
  ((taps (halfSize sigma)).map (kernelAt sigma)).sum

/- `weightSum > 0.00001 ? 1 / weightSum : 0`. -/
def scaleAt (sigma : ℝ) : ℝ :=
  if 0.00001 < weightSumAt sigma then 1 / weightSumAt sigma else 0

/- Mirror boundary rule, exactly the two sequential ifs of the source:
`if (src < 0) src = -src; if (src >= dim) src = 2*dim - src - 2`. -/
def mirror (dim : ℕ) (idx : ℤ) : ℤ :=
  if (dim : ℤ) ≤ (if idx < 0 then -idx else idx) then
    2 * (dim : ℤ) - (if idx < 0 then -idx else idx) - 2
  else (if idx < 0 then -idx else idx)

/- Horizontal pass at pixel (x, y), channel c.  Channel 3 (alpha) is
copied from the source; the color channels accumulate
`src[(y*width + mirror(x+i))*4 + c] * kernel[i + half]` and multiply by
the scale.  The result lands in the `Float32Array` temp buffer, so no
clamping happens here and `NaN` is stored as is. -/
def horizTerm (img : ImageData) (sigma : ℝ) (x y c : ℕ) (i : ℤ) : JsVal :=
  jmulW
    (img.data (((y : ℤ) * (img.width : ℤ) + mirror img.width ((x : ℤ) + i)) * 4 + (c : ℤ)))
    (kernelAt sigma i)

def horizAt (img : ImageData) (sigma : ℝ) (x y c : ℕ) : JsVal :=
  if c = 3 then img.data (((y * img.width + x) * 4 + 3 : ℕ) : ℤ)
  else
    jmulW (jsum ((taps (halfSize sigma)).map (horizTerm img sigma x y c))) (scaleAt sigma)

/- The temp buffer as a flat array: in-range cells hold the horizontal
pass value of the corresponding pixel, out-of-range reads are
undefined. -/
def tempData (img : ImageData) (sigma : ℝ) : ℤ → JsVal := fun idx =>
  if 0 ≤ idx ∧ idx < 4 * img.width * img.height then
    horizAt img sigma ((idx.toNat / 4) % img.width) ((idx.toNat / 4) / img.width)
      (idx.toNat % 4)
  else none

/- Vertical pass at pixel (x, y), channel c, reading the temp buffer at
`(srcY*width + x)*4 + c` with `srcY = mirror(y + j)`; the result is
`Math.min(255, Math.max(0, r*scale))` stored into the output
`Uint8ClampedArray`; alpha is copied from the source. -/
def vertTerm (img : ImageData) (sigma : ℝ) (x y c : ℕ) (j : ℤ) : JsVal :=
  jmulW
    (tempData img sigma
      ((mirror img.height ((y : ℤ) + j) * (img.width : ℤ) + (x : ℤ)) * 4 + (c : ℤ)))
    (kernelAt sigma j)

def vertAt (img : ImageData) (sigma : ℝ) (x y c : ℕ) : JsVal :=
  if c = 3 then some (uint8Clamp (img.data (((y * img.width + x) * 4 + 3 : ℕ) : ℤ)))
  else
    some (uint8Clamp (jmin 255 (jmax 0 (jmulW
      (jsum ((taps (halfSize sigma)).map (vertTerm img sigma x y c)))
      (scaleAt sigma)))))

def applyGaussianBlur (img : ImageData) (sigma : ℝ) : ImageData :=
  ⟨img.width, img.height, fun idx =>
    if 0 ≤ idx ∧ idx < 4 * img.width * img.height then
      vertAt img sigma ((idx.toNat / 4) % img.width) ((idx.toNat / 4) / img.width)
        (idx.toNat % 4)
    else none⟩

/- DoGBumpMapper._differenceOfGaussians: per-channel absolute
difference, alpha forced to 255. -/
def differenceOfGaussians (img1 img2 : ImageData) : ImageData :=
  ⟨img1.width, img1.height, fun idx =>
    if 0 ≤ idx ∧ idx < 4 * img1.width * img1.height then
      if idx % 4 = 3 then some 255
      else some (uint8Clamp (jabs (jsub (img1.data idx) (img2.data idx))))
    else none⟩

/- DoGBumpMapper._generateBumpValues threshold/scale policy on the
scalar dogValue; `Math.abs(NaN) > threshold` is false in JavaScript, so
the undefined case takes the neutral branch. -/
def bumpValue (dv : JsVal) (threshold heightScale : ℝ) : ℝ :=
  match dv with
  | some v =>
      if threshold < |v| then min 255 (max 0 (128 + v * heightScale)) else 128
  | none => 128

def generateBumpValues (dog : ImageData) (threshold heightScale : ℝ) : ImageData :=
  ⟨dog.width, dog.height, fun idx =>
    if 0 ≤ idx ∧ idx < 4 * dog.width * dog.height then
      if idx.toNat % 4 = 3 then some 255
      else
        some (uint8Clamp (some (bumpValue
          (jdivC (jadd
            (jadd (dog.pix ((idx.toNat / 4) % dog.width) ((idx.toNat / 4) / dog.width) 0)
              (dog.pix ((idx.toNat / 4) % dog.width) ((idx.toNat / 4) / dog.width) 1))
            (dog.pix ((idx.toNat / 4) % dog.width) ((idx.toNat / 4) / dog.width) 2)) 3)
          threshold heightScale)))
    else none⟩

/- The DoGBumpMapper constructor.  `options.x || default` replaces a
missing (undefined) or zero value by the default, then sigma is clamped
from below by 0.1. -/
def jsOr (v : Option ℝ) (d : ℝ) : ℝ :=
  match v with
  | none => d
  | some x => if x = 0 then d else x

structure DoGOptions where
  sigma1 : Option ℝ := none
  sigma2 : Option ℝ := none
  heightScale : Option ℝ := none
  threshold : Option ℝ := none

structure DoGConfig where
  sigma1 : ℝ
  sigma2 : ℝ
  heightScale : ℝ
  threshold : ℝ

def mkDoGBumpMapper (o : DoGOptions) : DoGConfig :=
  { sigma1 := max 0.1 (jsOr o.sigma1 1.0)
    sigma2 := max 0.1 (jsOr o.sigma2 2.0)
    heightScale := jsOr o.heightScale 1.0
    threshold := jsOr o.threshold 0.1 }

/- DoGBumpMapper.generateBumpMap: reject a null/zero-dimension image,
then blur the original twice, difference, and apply the bump policy. -/
def generateBumpMap (cfg : DoGConfig) (img : ImageData) : Option ImageData :=
  if img.width = 0 ∨ img.height = 0 then none
  else
    some (generateBumpValues
      (differenceOfGaussians (applyGaussianBlur img cfg.sigma1)
        (applyGaussianBlur img cfg.sigma2))
      cfg.threshold cfg.heightScale)

/- BumpToNormalMapper (the bump-to-normal pipeline).  All of its array
reads are guarded to stay in range, so the bump buffer is modelled as a
total flat array of numbers. -/
structure BumpBuffer where
  width : ℕ
  height : ℕ
  data : ℕ → ℝ

def constBump (w h : ℕ) (v : ℝ) : BumpBuffer := ⟨w, h, fun _ => v⟩

/- _computeCentralGradients: central difference on the red channel with
same-value fallback at the borders, scaled by 0.5 and the strength. -/
def centralGradients (bump : BumpBuffer) (strength : ℝ) (x y : ℕ) : ℝ × ℝ :=
  let idx := (y * bump.width + x) * 4
  let hc := bump.data idx / 255
  let left := if 0 < x then bump.data (idx - 4) / 255 else hc
  let right := if x < bump.width - 1 then bump.data (idx + 4) / 255 else hc
  let top := if 0 < y then bump.data ((y - 1) * bump.width * 4 + x * 4) / 255 else hc
  let bottom :=
    if y < bump.height - 1 then bump.data ((y + 1) * bump.width * 4 + x * 4) / 255 else hc
  ((right - left) * 0.5 * strength, (bottom - top) * 0.5 * strength)

/- _getSampleNeighborhood: 3×3 neighborhood with index clamping. -/
def sampleAt (bump : BumpBuffer) (x y : ℕ) (dx dy : ℤ) : ℝ :=
  let sx := (max 0 (min ((bump.width : ℤ) - 1) ((x : ℤ) + dx))).toNat
  let sy := (max 0 (min ((bump.height : ℤ) - 1) ((y : ℤ) + dy))).toNat
  bump.data ((sy * bump.width + sx) * 4) / 255

def sobelGradients (bump : BumpBuffer) (strength : ℝ) (x y : ℕ) : ℝ × ℝ :=
  ((-1 * sampleAt bump x y (-1) (-1) + 1 * sampleAt bump x y 1 (-1)
      + -2 * sampleAt bump x y (-1) 0 + 2 * sampleAt bump x y 1 0
      + -1 * sampleAt bump x y (-1) 1 + 1 * sampleAt bump x y 1 1) * strength / 8,
   (-1 * sampleAt bump x y (-1) (-1) - 2 * sampleAt bump x y 0 (-1)
      - 1 * sampleAt bump x y 1 (-1)
      + 1 * sampleAt bump x y (-1) 1 + 2 * sampleAt bump x y 0 1
      + 1 * sampleAt bump x y 1 1) * strength / 8)

def prewittGradients (bump : BumpBuffer) (strength : ℝ) (x y : ℕ) : ℝ × ℝ :=
  ((-1 * sampleAt bump x y (-1) (-1) + 1 * sampleAt bump x y 1 (-1)
      + -1 * sampleAt bump x y (-1) 0 + 1 * sampleAt bump x y 1 0
      + -1 * sampleAt bump x y (-1) 1 + 1 * sampleAt bump x y 1 1) * strength / 6,
   (-1 * sampleAt bump x y (-1) (-1) - 1 * sampleAt bump x y 0 (-1)
      - 1 * sampleAt bump x y 1 (-1)
      + 1 * sampleAt bump x y (-1) 1 + 1 * sampleAt bump x y 0 1
      + 1 * sampleAt bump x y 1 1) * strength / 6)

def sobelName : String := "sobel"

def prewittName : String := "prewitt"

def centralName : String := "central"

def bogusName : String := "bogus"

/- _computeComplexGradients: switch on the gradient type; the central
case is also the default, so any unrecognized string runs central. -/
def computeComplexGradients (gradientType : String) (bump : BumpBuffer)
    (strength : ℝ) (x y : ℕ) : ℝ × ℝ :=
  if gradientType = sobelName then sobelGradients bump strength x y
  else if gradientType = prewittName then prewittGradients bump strength x y
  else centralGradients bump strength x y

/- _mapToVectorField: lift each gradient to (dx, dy, 1). -/
def vecAt (gradientType : String) (strength : ℝ) (bump : BumpBuffer) (x y : ℕ) :
    ℝ × ℝ × ℝ :=
  ((computeComplexGradients gradientType bump strength x y).1,
   (computeComplexGradients gradientType bump strength x y).2, 1)

/- _normalizeVectors: `len = Math.sqrt(x*x + y*y + z*z) || 0.00001`;
the square root is falsy exactly when it is 0 (NaN cannot arise here:
the inputs are plain numbers). -/
def normalizeVec (v : ℝ × ℝ × ℝ) : ℝ × ℝ × ℝ :=
  ((v.1 / (if Real.sqrt (v.1 * v.1 + v.2.1 * v.2.1 + v.2.2 * v.2.2) = 0 then 0.00001
      else Real.sqrt (v.1 * v.1 + v.2.1 * v.2.1 + v.2.2 * v.2.2))),
   (v.2.1 / (if Real.sqrt (v.1 * v.1 + v.2.1 * v.2.1 + v.2.2 * v.2.2) = 0 then 0.00001
      else Real.sqrt (v.1 * v.1 + v.2.1 * v.2.1 + v.2.2 * v.2.2))),
   (v.2.2 / (if Real.sqrt (v.1 * v.1 + v.2.1 * v.2.1 + v.2.2 * v.2.2) = 0 then 0.00001
      else Real.sqrt (v.1 * v.1 + v.2.1 * v.2.1 + v.2.2 * v.2.2))))

/- The vector field handed to RGB encoding. -/
def normalVecAt (gradientType : String) (strength : ℝ) (bump : BumpBuffer) (x y : ℕ) :
    ℝ × ℝ × ℝ :=
  normalizeVec (vecAt gradientType strength bump x y)

/- _encodeAsRGB: `Math.max(0, Math.min(255, Math.floor((c*0.5+0.5)*255)))`. -/
def encodeComp (c : ℝ) : ℤ := max 0 (min 255 ⌊(c * 0.5 + 0.5) * 255⌋)

/- _validateStrength clamps to [0.01, 10.0] (the non-number branch is
outside the numeric model). -/
def validateStrength (strength : ℝ) : ℝ := max 0.01 (min 10.0 strength)

/- `options.gradientType || 'central'`: the empty string is falsy. -/
def strOr (v : Option String) (d : String) : String :=
  match v with
  | none => d
  | some s => if s = "" then d else s

structure NMOptions where
  strength : Option ℝ := none
  gradientType : Option String := none

structure NMConfig where
  strength : ℝ
  gradientType : String

/- BumpToNormalMapper constructor: `strength ?? 1.0` then validation
(nullish coalescing, not `||`), `gradientType || 'central'`. -/
def mkBumpToNormalMapper (o : NMOptions) : NMConfig :=
  { strength := validateStrength (o.strength.getD 1.0)
    gradientType := strOr o.gradientType centralName }

/- One pixel of the finished normal map (RGBA, alpha always 255). -/
def generateNormalMapPixel (cfg : NMConfig) (bump : BumpBuffer) (x y : ℕ) :
    ℤ × ℤ × ℤ × ℤ :=
  (encodeComp (normalVecAt cfg.gradientType cfg.strength bump x y).1,
   encodeComp (normalVecAt cfg.gradientType cfg.strength bump x y).2.1,
   encodeComp (normalVecAt cfg.gradientType cfg.strength bump x y).2.2, 255)

/- BumpToNormalPDA constructor (src/src/js/BumpToNormalMapper.js):
`this.strength = options.strength || 1.0`. -/
def pdaStrength (strength : Option ℝ) : ℝ := jsOr strength 1.0

end

/- ------------------------------------------------------------------ -/
/- Lemmas and theorems.                                               -/
/- ------------------------------------------------------------------ -/

lemma jadd_none_right (a : JsVal) : jadd a none = none := by
  cases a <;> rfl

lemma foldl_jadd_none (l : List JsVal) : l.foldl jadd none = none := by
  induction l with
  | nil => rfl
  | cons hd tl ih => simpa [jadd] using ih

lemma foldl_jadd_some {α : Type} (l : List α) (g : α → ℝ) :
    ∀ a : ℝ, (l.map (fun t => some (g t))).foldl jadd (some a)
      = some (a + (l.map g).sum) := by
  induction l with
  | nil => intro a; simp [jadd]
  | cons hd tl ih =>
      intro a
      simp only [List.map_cons, List.foldl_cons, jadd, List.sum_cons]
      rw [ih (a + g hd)]
      ring_nf

lemma jsum_map_some {α : Type} (l : List α) (g : α → ℝ) :
    jsum (l.map (fun t => some (g t))) = some ((l.map g).sum) := by
  unfold jsum
  rw [foldl_jadd_some l g 0]
  norm_num

lemma foldl_jadd_of_mem_none (l : List JsVal) :
    ∀ acc : JsVal, none ∈ l → l.foldl jadd acc = none := by
  induction l with
  | nil => intro acc hmem; cases hmem
  | cons hd tl ih =>
      intro acc hmem
      rcases List.mem_cons.mp hmem with hhd | htl
      · rw [List.foldl_cons, ← hhd, jadd_none_right, foldl_jadd_none]
      · rw [List.foldl_cons]
        exact ih (jadd acc hd) htl

lemma jsum_none {l : List JsVal} (h : none ∈ l) : jsum l = none :=
  foldl_jadd_of_mem_none l (some 0) h

lemma sum_map_div {α : Type} (l : List α) (f : α → ℝ) (c : ℝ) :
    (l.map (fun i => f i / c)).sum = (l.map f).sum / c := by
  induction l with
  | nil => simp
  | cons hd tl ih => simp [ih, add_div]

lemma generateGaussianKernel_sum (sigma : ℝ) (size : ℕ) (hs : 0 < size) :
    ((List.range size).map (generateGaussianKernel sigma size)).sum = 1 := by
  unfold generateGaussianKernel
  by_cases h : gaussianRawSum sigma size < 0.00001
  · simp only [h, if_true]
    have hconst : (List.range size).map (fun _ : ℕ => 1.0 / (size : ℝ))
        = List.replicate size (1.0 / (size : ℝ)) := by
      rw [List.eq_replicate_iff]
      constructor
      · simp
      · intro b hb
        rcases List.mem_map.mp hb with ⟨k, _, hk⟩
        exact hk.symm
    rw [hconst, List.sum_replicate, nsmul_eq_mul]
    have hne : (size : ℝ) ≠ 0 := Nat.cast_ne_zero.mpr (Nat.pos_iff_ne_zero.mp hs)
    field_simp
    norm_num
  · simp only [h, if_false]
    rw [sum_map_div]
    have hge : (0.00001 : ℝ) ≤ gaussianRawSum sigma size := le_of_not_lt h
    have hne : gaussianRawSum sigma size ≠ 0 := by
      intro h0
      rw [h0] at hge
      norm_num at hge
    rw [show (List.range size).map (gaussianRaw sigma size)
          = (List.range size).map (gaussianRaw sigma size) from rfl]
    exact div_self hne

/-- Claim C5: for every sigma > 0 and size ≥ 3, the generated 1-D
Gaussian kernel (weights `exp(-x²/(2σ²))` with `x = i - floor(size/2)`,
divided by the total, or the uniform `1/size` fallback when the raw sum
is below 1e-5) has weights summing to exactly 1, hence certainly to 1.0
within 1e-6. -/
theorem C5_kernel_normalization (sigma : ℝ) (size : ℕ)
    (hsig : 0 < sigma) (hsz : 3 ≤ size) :
    ((List.range size).map (generateGaussianKernel sigma size)).sum = 1 :=
  generateGaussianKernel_sum sigma size (by omega)

/-- Witness for C5 at sigma = 2, size = 13. -/
theorem C5_kernel_normalization_witness :
    0 < (2 : ℝ) ∧ (3 : ℕ) ≤ 13
      ∧ ((List.range 13).map (generateGaussianKernel 2 13)).sum = 1 :=
  ⟨by norm_num, by norm_num, C5_kernel_normalization 2 13 (by norm_num) (by norm_num)⟩

lemma cacheLookup_append_self (c : List ((ℝ × ℕ) × (ℕ → ℝ))) (key : ℝ × ℕ)
    (k : ℕ → ℝ) (h : cacheLookup c key = none) :
    cacheLookup (c ++ [(key, k)]) key = some k := by
  induction c with
  | nil => simp [cacheLookup]
  | cons hd tl ih =>
      rw [List.cons_append]
      unfold cacheLookup at h ⊢
      by_cases hk : hd.1 = key
      · rw [if_pos hk] at h
        exact absurd h (by simp)
      · rw [if_neg hk] at h ⊢
        exact ih h

/-- Claim C7: for every cache state, sigma and size, calling the kernel
getter twice with the same pair returns the identical kernel function
(element-wise identical weights), leaves the cache unchanged on the
second call, and the second call performs no recomputation (the
generated-fresh flag is false: the result comes from the cache). -/
theorem C7_kernel_cache_idempotent (cache : List ((ℝ × ℕ) × (ℕ → ℝ)))
    (sigma : ℝ) (size : ℕ) :
    getGaussianKernel (getGaussianKernel cache sigma size).2.1 sigma size
      = ((getGaussianKernel cache sigma size).1,
         (getGaussianKernel cache sigma size).2.1, false) := by
  unfold getGaussianKernel
  cases h : cacheLookup cache (sigma, size) with
  | some k => simp [h]
  | none =>
      simp only [h]
      rw [cacheLookup_append_self cache (sigma, size) (generateGaussianKernel sigma size) h]

lemma normalizeVec_sumsq (dx dy : ℝ) :
    (normalizeVec (dx, dy, 1)).1 * (normalizeVec (dx, dy, 1)).1
      + (normalizeVec (dx, dy, 1)).2.1 * (normalizeVec (dx, dy, 1)).2.1
      + (normalizeVec (dx, dy, 1)).2.2 * (normalizeVec (dx, dy, 1)).2.2 = 1 := by
  unfold normalizeVec
  dsimp only
  have hs : (0 : ℝ) < dx * dx + dy * dy + 1 * 1 := by
    nlinarith [mul_self_nonneg dx, mul_self_nonneg dy]
  have hl0 : Real.sqrt (dx * dx + dy * dy + 1 * 1) ≠ 0 :=
    ne_of_gt (Real.sqrt_pos.mpr hs)
  have hll : Real.sqrt (dx * dx + dy * dy + 1 * 1) * Real.sqrt (dx * dx + dy * dy + 1 * 1)
      = dx * dx + dy * dy + 1 * 1 := Real.mul_self_sqrt hs.le
  simp only [if_neg hl0]
  rw [div_mul_div_comm, div_mul_div_comm, div_mul_div_comm, div_add_div_same,
    div_add_div_same, hll]
  exact div_self (ne_of_gt hs)

/-- Claim C9: for every bump input, gradient method and strength, and
every pixel, the vector produced by the normalization stage (the field
handed to RGB encoding) has Euclidean length exactly 1, hence within
1e-4 of 1.0: the z component is fixed at 1 before normalization so the
length is never zero and the epsilon fallback never fires. -/
theorem C9_unit_length (gradientType : String) (strength : ℝ)
    (bump : BumpBuffer) (x y : ℕ) :
    Real.sqrt ((normalVecAt gradientType strength bump x y).1
        * (normalVecAt gradientType strength bump x y).1
      + (normalVecAt gradientType strength bump x y).2.1
        * (normalVecAt gradientType strength bump x y).2.1
      + (normalVecAt gradientType strength bump x y).2.2
        * (normalVecAt gradientType strength bump x y).2.2) = 1 := by
  unfold normalVecAt vecAt
  rw [normalizeVec_sumsq (computeComplexGradients gradientType bump strength x y).1
    (computeComplexGradients gradientType bump strength x y).2]
  exact Real.sqrt_one

/-- Claim C10: an options record that passes an explicit 0 for
threshold or heightScale produces exactly the configuration the default
would give (threshold 0.1, heightScale 1.0), so a caller cannot select
a zero threshold or zero height scale; the same zero-to-default
replacement applies to the strength option of the PDA normal mapper. -/
theorem C10_zero_option_defaults (o : DoGOptions) :
    mkDoGBumpMapper { o with threshold := some 0 }
        = mkDoGBumpMapper { o with threshold := none }
    ∧ (mkDoGBumpMapper { o with threshold := some 0 }).threshold = 0.1
    ∧ mkDoGBumpMapper { o with heightScale := some 0 }
        = mkDoGBumpMapper { o with heightScale := none }
    ∧ (mkDoGBumpMapper { o with heightScale := some 0 }).heightScale = 1.0
    ∧ pdaStrength (some 0) = pdaStrength none
    ∧ pdaStrength (some 0) = 1.0 := by
  refine ⟨?_, ?_, ?_, ?_, ?_, ?_⟩ <;> simp [mkDoGBumpMapper, jsOr, pdaStrength]

/-- Claim C6 counterexample: a negative sigma is not rejected: the
constructor completes and clamps it to 0.1, and an unrecognized
gradient method string is not rejected: the dispatcher runs the central
gradient computation.  No InvalidParameter error path exists in the
code for either case. -/
theorem C6_counterexample :
    (mkDoGBumpMapper { sigma1 := some (-1) }).sigma1 = 0.1
    ∧ computeComplexGradients bogusName (constBump 2 2 5) 1 0 0
        = centralGradients (constBump 2 2 5) 1 0 0 := by
  constructor
  · simp only [mkDoGBumpMapper, jsOr]
    norm_num
  · simp [computeComplexGradients, bogusName, sobelName, prewittName]

/-- Claim C6 (amended): the DoGBumpMapper constructor accepts every
sigma: a negative sigma is silently clamped up to 0.1 and an explicit
sigma of 0 is replaced by the default 1.0; a gradient method string
other than "sobel" and "prewitt" silently runs the central method.  No
InvalidParameter error is raised in either place. -/
theorem C6_no_invalid_parameter (o : DoGOptions) (sigma : ℝ) (m : String)
    (bump : BumpBuffer) (strength : ℝ) (x y : ℕ)
    (hneg : sigma < 0) (hm1 : m ≠ sobelName) (hm2 : m ≠ prewittName) :
    (mkDoGBumpMapper { o with sigma1 := some sigma }).sigma1 = 0.1
    ∧ (mkDoGBumpMapper { o with sigma1 := some 0 }).sigma1 = 1.0
    ∧ computeComplexGradients m bump strength x y = centralGradients bump strength x y := by
  refine ⟨?_, ?_, ?_⟩
  · simp only [mkDoGBumpMapper, jsOr, if_neg (ne_of_lt hneg)]
    exact max_eq_left (by linarith)
  · simp only [mkDoGBumpMapper, jsOr, if_pos rfl]
    norm_num
  · simp only [computeComplexGradients, if_neg hm1, if_neg hm2]

/-- Witness for C6 at sigma = -2 and method "bogus". -/
theorem C6_no_invalid_parameter_witness :
    (-2 : ℝ) < 0 ∧ bogusName ≠ sobelName ∧ bogusName ≠ prewittName
    ∧ ((mkDoGBumpMapper { (⟨none, none, none, none⟩ : DoGOptions) with sigma1 := some (-2) }).sigma1 = 0.1
      ∧ (mkDoGBumpMapper { (⟨none, none, none, none⟩ : DoGOptions) with sigma1 := some 0 }).sigma1 = 1.0
      ∧ computeComplexGradients bogusName (constBump 1 1 0) 1 0 0
          = centralGradients (constBump 1 1 0) 1 0 0) :=
  ⟨by norm_num, by simp [bogusName, sobelName], by simp [bogusName, prewittName],
   C6_no_invalid_parameter ⟨none, none, none, none⟩ (-2) bogusName (constBump 1 1 0) 1 0 0
     (by norm_num) (by simp [bogusName, sobelName]) (by simp [bogusName, prewittName])⟩

lemma flat_lt_aux (p q c : ℕ) (hpq : p < q) (hc : c < 4) : p * 4 + c < 4 * q := by
  omega

lemma flat_pix_lt (x y c w h : ℕ) (hx : x < w) (hy : y < h) (hc : c < 4) :
    (y * w + x) * 4 + c < 4 * (w * h) := by
  have h1 : y * w + x < w * h := by
    calc y * w + x < y * w + w := by omega
    _ = (y + 1) * w := by ring
    _ ≤ h * w := Nat.mul_le_mul_right w (by omega)
    _ = w * h := Nat.mul_comm h w
  exact flat_lt_aux _ _ _ h1 hc

lemma rowcol_mod (x y w : ℕ) (hx : x < w) : (y * w + x) % w = x := by
  rw [Nat.mul_comm y w, Nat.mul_add_mod, Nat.mod_eq_of_lt hx]

lemma rowcol_div (x y w : ℕ) (hx : x < w) : (y * w + x) / w = y := by
  rw [Nat.mul_comm y w, Nat.mul_add_div (by omega), Nat.div_eq_of_lt hx]
  omega

lemma pix_cast_bound (x y c w h : ℕ) (hx : x < w) (hy : y < h) (hc : c < 4) :
    (0 : ℤ) ≤ (((y * w + x) * 4 + c : ℕ) : ℤ)
    ∧ (((y * w + x) * 4 + c : ℕ) : ℤ) < 4 * (w : ℤ) * (h : ℤ) := by
  refine ⟨Int.natCast_nonneg _, ?_⟩
  have hlt := flat_pix_lt x y c w h hx hy hc
  have hcast : ((4 * (w * h) : ℕ) : ℤ) = 4 * (w : ℤ) * (h : ℤ) := by push_cast; ring
  rw [← hcast]
  exact_mod_cast hlt

lemma uniformImage_read (w h : ℕ) (r g b a : ℝ) (x y c : ℕ)
    (hx : x < w) (hy : y < h) (hc : c < 4) :
    (uniformImage w h r g b a).data (((y * w + x) * 4 + c : ℕ) : ℤ)
      = some (chanVal r g b a c) := by
  unfold uniformImage
  dsimp only
  rw [if_pos (pix_cast_bound x y c w h hx hy hc)]
  have harg : ((((y * w + x) * 4 + c : ℕ) : ℤ)).toNat % 4 = c := by
    rw [Int.toNat_natCast]
    omega
  rw [harg]

lemma generateBumpValues_pix (dog : ImageData) (t hs : ℝ) (x y c : ℕ)
    (hx : x < dog.width) (hy : y < dog.height) (hc : c < 3) :
    (generateBumpValues dog t hs).pix x y c
      = some (uint8Clamp (some (bumpValue
          (jdivC (jadd (jadd (dog.pix x y 0) (dog.pix x y 1)) (dog.pix x y 2)) 3)
          t hs))) := by
  unfold ImageData.pix generateBumpValues
  dsimp only
  rw [if_pos (pix_cast_bound x y c dog.width dog.height hx hy (by omega))]
  have hn : ((((y * dog.width + x) * 4 + c : ℕ) : ℤ)).toNat
      = (y * dog.width + x) * 4 + c := Int.toNat_natCast _
  rw [hn]
  rw [if_neg (by omega : ¬ ((y * dog.width + x) * 4 + c) % 4 = 3)]
  rw [show ((y * dog.width + x) * 4 + c) / 4 = y * dog.width + x by omega]
  rw [rowcol_mod x y dog.width hx, rowcol_div x y dog.width hx]
  rfl

lemma generateBumpValues_alpha (dog : ImageData) (t hs : ℝ) (x y : ℕ)
    (hx : x < dog.width) (hy : y < dog.height) :
    (generateBumpValues dog t hs).pix x y 3 = some 255 := by
  unfold ImageData.pix generateBumpValues
  dsimp only
  rw [if_pos (pix_cast_bound x y 3 dog.width dog.height hx hy (by omega))]
  rw [if_pos]
  rw [Int.toNat_natCast]
  omega

/-- Claim C1: for every DoG image pixel, with dogValue the average of
its R, G and B channels, the value written by the bump policy is
clamp(128 + dogValue*heightScale, 0, 255) when |dogValue| is strictly
greater than the threshold, and exactly the neutral 128 otherwise
(equal-to-threshold stays neutral). -/
theorem C1_bump_policy (dog : ImageData) (threshold heightScale : ℝ) (x y c : ℕ)
    (hx : x < dog.width) (hy : y < dog.height) (hc : c < 3)
    (r g b : ℝ) (hr : dog.pix x y 0 = some r) (hg : dog.pix x y 1 = some g)
    (hb : dog.pix x y 2 = some b) :
    (generateBumpValues dog threshold heightScale).pix x y c
      = some (if threshold < |(r + g + b) / 3|
          then min 255 (max 0 (128 + ((r + g + b) / 3) * heightScale))
          else 128) := by
  rw [generateBumpValues_pix dog threshold heightScale x y c hx hy hc, hr, hg, hb]
  simp only [jadd, jdivC, Option.map]
  simp only [bumpValue, uint8Clamp]
  split_ifs with hcond
  · congr 1
    have h0 : (0 : ℝ) ≤ min 255 (max 0 (128 + (r + g + b) / 3 * heightScale)) :=
      le_min (by norm_num) (le_max_left _ _)
    rw [max_eq_right h0, ← min_assoc, min_self]
  · norm_num

/-- Witness for C1, the Scenario D instance: dogValue 0.3 with
threshold 0.5 yields the neutral 128. -/
theorem C1_bump_policy_witness :
    (uniformImage 1 1 0.3 0.3 0.3 255).pix 0 0 0 = some 0.3
    ∧ (generateBumpValues (uniformImage 1 1 0.3 0.3 0.3 255) 0.5 1).pix 0 0 0
        = some 128 := by
  have hpix : ∀ c : ℕ, c < 3 → (uniformImage 1 1 (0.3 : ℝ) 0.3 0.3 255).pix 0 0 c
      = some 0.3 := by
    intro c hcc
    unfold ImageData.pix
    have := uniformImage_read 1 1 (0.3 : ℝ) 0.3 0.3 255 0 0 c (by norm_num) (by norm_num)
      (by omega)
    rw [show (uniformImage 1 1 (0.3 : ℝ) 0.3 0.3 255).width = 1 from rfl]
    rw [this]
    unfold chanVal
    interval_cases c <;> norm_num
  refine ⟨hpix 0 (by norm_num), ?_⟩
  have hmain := C1_bump_policy (uniformImage 1 1 0.3 0.3 0.3 255) 0.5 1 0 0 0
    (by norm_num [uniformImage]) (by norm_num [uniformImage]) (by norm_num)
    0.3 0.3 0.3 (hpix 0 (by norm_num)) (hpix 1 (by norm_num)) (hpix 2 (by norm_num))
  rw [hmain]
  rw [if_neg]
  rw [show ((0.3 : ℝ) + 0.3 + 0.3) / 3 = 0.3 by norm_num]
  rw [abs_of_pos (by norm_num : (0.3 : ℝ) > 0)]
  norm_num

lemma differenceOfGaussians_pix (A B : ImageData) (x y c : ℕ)
    (hx : x < A.width) (hy : y < A.height) (hc : c < 3) :
    (differenceOfGaussians A B).pix x y c
      = some (uint8Clamp (jabs (jsub
          (A.data (((y * A.width + x) * 4 + c : ℕ) : ℤ))
          (B.data (((y * A.width + x) * 4 + c : ℕ) : ℤ))))) := by
  unfold ImageData.pix differenceOfGaussians
  dsimp only
  rw [if_pos (pix_cast_bound x y c A.width A.height hx hy (by omega))]
  rw [if_neg]
  omega

lemma uint8_sub_self (v : JsVal) : uint8Clamp (jabs (jsub v v)) = 0 := by
  cases v with
  | none => rfl
  | some t => simp [jsub, jabs, uint8Clamp]

/-- Claim C2: for every image of positive dimensions and every
configuration whose two sigmas are equal, generateBumpMap succeeds and
every pixel of the height map is (128, 128, 128, 255): the two blurs
are identical, their difference is zero everywhere, and zero resolves
to the neutral height under the policy for any threshold. -/
theorem C2_degenerate_dog (cfg : DoGConfig) (img : ImageData)
    (hsig : cfg.sigma1 = cfg.sigma2) (hw : 0 < img.width) (hh : 0 < img.height) :
    ∃ out, generateBumpMap cfg img = some out
      ∧ out.width = img.width ∧ out.height = img.height
      ∧ (∀ x y c, x < img.width → y < img.height → c < 3 → out.pix x y c = some 128)
      ∧ (∀ x y, x < img.width → y < img.height → out.pix x y 3 = some 255) := by
  refine ⟨generateBumpValues
      (differenceOfGaussians (applyGaussianBlur img cfg.sigma1)
        (applyGaussianBlur img cfg.sigma2)) cfg.threshold cfg.heightScale,
    ?_, rfl, rfl, ?_, ?_⟩
  · unfold generateBumpMap
    rw [if_neg]
    push_neg
    exact ⟨by omega, by omega⟩
  · intro x y c hx hy hc
    rw [hsig]
    rw [generateBumpValues_pix
      (differenceOfGaussians (applyGaussianBlur img cfg.sigma2)
        (applyGaussianBlur img cfg.sigma2)) cfg.threshold cfg.heightScale x y c hx hy hc]
    rw [differenceOfGaussians_pix (applyGaussianBlur img cfg.sigma2)
        (applyGaussianBlur img cfg.sigma2) x y 0 hx hy (by norm_num),
      differenceOfGaussians_pix (applyGaussianBlur img cfg.sigma2)
        (applyGaussianBlur img cfg.sigma2) x y 1 hx hy (by norm_num),
      differenceOfGaussians_pix (applyGaussianBlur img cfg.sigma2)
        (applyGaussianBlur img cfg.sigma2) x y 2 hx hy (by norm_num)]
    rw [uint8_sub_self, uint8_sub_self, uint8_sub_self]
    have hbv : bumpValue (jdivC (jadd (jadd (some 0) (some 0)) (some 0)) 3)
        cfg.threshold cfg.heightScale = 128 := by
      simp only [jadd, jdivC, Option.map, bumpValue]
      split_ifs <;> norm_num
    rw [hbv]
    unfold uint8Clamp
    norm_num
  · intro x y hx hy
    exact generateBumpValues_alpha _ _ _ x y hx hy

/-- Witness for C2 at sigma1 = sigma2 = 1 on a 2×2 image. -/
theorem C2_degenerate_dog_witness :
    (mkDoGBumpMapper ⟨some 1, some 1, none, none⟩).sigma1
        = (mkDoGBumpMapper ⟨some 1, some 1, none, none⟩).sigma2
    ∧ 0 < (uniformImage 2 2 7 8 9 255).width
    ∧ 0 < (uniformImage 2 2 7 8 9 255).height
    ∧ ∃ out, generateBumpMap (mkDoGBumpMapper ⟨some 1, some 1, none, none⟩)
          (uniformImage 2 2 7 8 9 255) = some out
        ∧ out.width = (uniformImage 2 2 7 8 9 255).width
        ∧ out.height = (uniformImage 2 2 7 8 9 255).height
        ∧ (∀ x y c, x < (uniformImage 2 2 7 8 9 255).width
            → y < (uniformImage 2 2 7 8 9 255).height → c < 3 → out.pix x y c = some 128)
        ∧ (∀ x y, x < (uniformImage 2 2 7 8 9 255).width
            → y < (uniformImage 2 2 7 8 9 255).height → out.pix x y 3 = some 255) := by
  have hsig : (mkDoGBumpMapper ⟨some 1, some 1, none, none⟩).sigma1
      = (mkDoGBumpMapper ⟨some 1, some 1, none, none⟩).sigma2 := by
    simp [mkDoGBumpMapper, jsOr]
  exact ⟨hsig, by norm_num [uniformImage], by norm_num [uniformImage],
    C2_degenerate_dog (mkDoGBumpMapper ⟨some 1, some 1, none, none⟩)
      (uniformImage 2 2 7 8 9 255) hsig (by norm_num [uniformImage])
      (by norm_num [uniformImage])⟩

lemma validateStrength_one : validateStrength 1.0 = 1 := by
  unfold validateStrength
  norm_num

lemma centralGradients_const (w h : ℕ) (v strength : ℝ) (x y : ℕ) :
    centralGradients (constBump w h v) strength x y = (0, 0) := by
  unfold centralGradients constBump
  dsimp only
  split_ifs <;> simp

lemma encodeComp_zero : encodeComp 0 = 127 := by
  unfold encodeComp
  rw [show ((0 : ℝ) * 0.5 + 0.5) * 255 = 127.5 by norm_num]
  rw [show ⌊(127.5 : ℝ)⌋ = 127 from Int.floor_eq_iff.mpr ⟨by norm_num, by norm_num⟩]
  rw [min_eq_right (by norm_num : (127 : ℤ) ≤ 255), max_eq_right (by norm_num : (0 : ℤ) ≤ 127)]

lemma encodeComp_one : encodeComp 1 = 255 := by
  unfold encodeComp
  rw [show ((1 : ℝ) * 0.5 + 0.5) * 255 = 255 by norm_num]
  rw [show ⌊(255 : ℝ)⌋ = 255 from Int.floor_eq_iff.mpr ⟨by norm_num, by norm_num⟩]
  rw [min_self, max_eq_right (by norm_num : (0 : ℤ) ≤ 255)]

lemma normalizeVec_unit_z : normalizeVec ((0 : ℝ), (0 : ℝ), (1 : ℝ)) = (0, 0, 1) := by
  unfold normalizeVec
  dsimp only
  rw [show (0 : ℝ) * 0 + 0 * 0 + 1 * 1 = 1 by norm_num]
  rw [Real.sqrt_one]
  rw [if_neg (by norm_num : (1 : ℝ) ≠ 0)]
  norm_num

/-- Claim C8: on a flat (constant-valued) height buffer, the central
gradient at the validated strength 1.0 is (0,0) at every pixel, the
lifted and normalized vector is (0,0,1), and the floor-based RGB
encoding gives (127, 127, 255, 255) at every pixel (floor rounding,
never 128). -/
theorem C8_flat_normal (w h : ℕ) (v : ℝ) (x y : ℕ) (hx : x < w) (hy : y < h) :
    generateNormalMapPixel
      (mkBumpToNormalMapper { strength := some 1, gradientType := some centralName })
      (constBump w h v) x y = (127, 127, 255, 255) := by
  have hcfg : mkBumpToNormalMapper { strength := some 1, gradientType := some centralName }
      = ⟨1, centralName⟩ := by
    unfold mkBumpToNormalMapper strOr
    dsimp only
    rw [Option.getD_some]
    rw [show validateStrength (1 : ℝ) = 1 by
      unfold validateStrength
      rw [min_eq_right (by norm_num : (1 : ℝ) ≤ 10.0),
        max_eq_right (by norm_num : (0.01 : ℝ) ≤ 1)]]
    rw [ite_self]
  rw [hcfg]
  unfold generateNormalMapPixel normalVecAt vecAt
  have hg : computeComplexGradients centralName (constBump w h v) 1 x y = (0, 0) := by
    unfold computeComplexGradients
    rw [if_neg (by simp [centralName, sobelName]), if_neg (by simp [centralName, prewittName])]
    exact centralGradients_const w h v 1 x y
  rw [hg]
  dsimp only
  rw [normalizeVec_unit_z]
  dsimp only
  rw [encodeComp_zero, encodeComp_one]

/-- Witness for C8 on a 2×2 flat buffer of height 64. -/
theorem C8_flat_normal_witness :
    (0 : ℕ) < 2
    ∧ generateNormalMapPixel
        (mkBumpToNormalMapper { strength := some 1, gradientType := some centralName })
        (constBump 2 2 64) 0 0 = (127, 127, 255, 255) :=
  ⟨by norm_num, C8_flat_normal 2 2 64 0 0 (by norm_num) (by norm_num)⟩

lemma mem_taps {half : ℕ} {i : ℤ} (h : i ∈ taps half) :
    -(half : ℤ) ≤ i ∧ i ≤ (half : ℤ) := by
  unfold taps at h
  rcases List.mem_map.mp h with ⟨k, hk, rfl⟩
  have hk2 := List.mem_range.mp hk
  omega

lemma taps_weight_sum (f : ℕ → ℝ) (half : ℕ) :
    ((taps half).map (fun i => f ((i + (half : ℤ)).toNat))).sum
      = ((List.range (2 * half + 1)).map f).sum := by
  unfold taps
  rw [List.map_map]
  congr 1
  apply List.map_congr_left
  intro k hk
  simp only [Function.comp]
  congr 1
  omega

lemma kernelSizeOdd_odd (sigma : ℝ) : kernelSizeOdd sigma % 2 = 1 := by
  unfold kernelSizeOdd
  split_ifs with h <;> omega

lemma kernelSizeOdd_ge3 (sigma : ℝ) : 3 ≤ kernelSizeOdd sigma := by
  have h3 : 3 ≤ kernelSize sigma := le_max_left 3 _
  unfold kernelSizeOdd
  split_ifs <;> omega

lemma two_halfSize (sigma : ℝ) : 2 * halfSize sigma + 1 = kernelSizeOdd sigma := by
  have h1 := kernelSizeOdd_odd sigma
  unfold halfSize
  omega

lemma weightSumAt_eq_one (sigma : ℝ) : weightSumAt sigma = 1 := by
  unfold weightSumAt
  rw [show kernelAt sigma = (fun i => generateGaussianKernel sigma (kernelSizeOdd sigma)
    ((i + (halfSize sigma : ℤ)).toNat)) from rfl]
  rw [taps_weight_sum (generateGaussianKernel sigma (kernelSizeOdd sigma)) (halfSize sigma)]
  rw [two_halfSize]
  exact generateGaussianKernel_sum sigma (kernelSizeOdd sigma)
    (by have := kernelSizeOdd_ge3 sigma; omega)

lemma scaleAt_eq_one (sigma : ℝ) : scaleAt sigma = 1 := by
  unfold scaleAt
  rw [weightSumAt_eq_one]
  norm_num

lemma mirror_range (dim x : ℕ) (i : ℤ) (half : ℕ)
    (hx : x < dim) (hi1 : -(half : ℤ) ≤ i) (hi2 : i ≤ (half : ℤ)) (hhalf : half < dim) :
    0 ≤ mirror dim ((x : ℤ) + i) ∧ mirror dim ((x : ℤ) + i) < (dim : ℤ) := by
  unfold mirror
  split_ifs <;> omega

lemma jsum_map_eq_of_some {α : Type} (l : List α) (f : α → JsVal) (g : α → ℝ)
    (h : ∀ t ∈ l, f t = some (g t)) : jsum (l.map f) = some ((l.map g).sum) := by
  have hmap : l.map f = l.map (fun t => some (g t)) := by
    apply List.map_congr_left
    intro t ht
    rw [h t ht]
  rw [hmap, jsum_map_some]

lemma tempData_read (img : ImageData) (sigma : ℝ) (x sy c : ℕ)
    (hx : x < img.width) (hsy : sy < img.height) (hc : c < 4) :
    tempData img sigma (((sy * img.width + x) * 4 + c : ℕ) : ℤ)
      = horizAt img sigma x sy c := by
  unfold tempData
  rw [if_pos (pix_cast_bound x sy c img.width img.height hx hsy hc)]
  rw [Int.toNat_natCast]
  rw [show ((sy * img.width + x) * 4 + c) / 4 = sy * img.width + x by omega]
  rw [rowcol_mod x sy img.width hx, rowcol_div x sy img.width hx]
  rw [show ((sy * img.width + x) * 4 + c) % 4 = c by omega]

lemma applyGaussianBlur_pix (img : ImageData) (sigma : ℝ) (x y c : ℕ)
    (hx : x < img.width) (hy : y < img.height) (hc : c < 4) :
    (applyGaussianBlur img sigma).pix x y c = vertAt img sigma x y c := by
  unfold ImageData.pix applyGaussianBlur
  dsimp only
  rw [if_pos (pix_cast_bound x y c img.width img.height hx hy hc)]
  rw [Int.toNat_natCast]
  rw [show ((y * img.width + x) * 4 + c) / 4 = y * img.width + x by omega]
  rw [rowcol_mod x y img.width hx, rowcol_div x y img.width hx]
  rw [show ((y * img.width + x) * 4 + c) % 4 = c by omega]

lemma horizTerm_uniform (w h : ℕ) (r g b a sigma : ℝ) (x y c : ℕ)
    (hx : x < w) (hy : y < h) (hc : c < 4) (hhw : halfSize sigma < w)
    (i : ℤ) (hi : i ∈ taps (halfSize sigma)) :
    horizTerm (uniformImage w h r g b a) sigma x y c i
      = some (chanVal r g b a c * kernelAt sigma i) := by
  obtain ⟨hi1, hi2⟩ := mem_taps hi
  obtain ⟨hm0, hm1⟩ := mirror_range w x i (halfSize sigma) hx hi1 hi2 hhw
  unfold horizTerm
  rw [show (uniformImage w h r g b a).width = w from rfl]
  rw [show ((y : ℤ) * (w : ℤ) + mirror w ((x : ℤ) + i)) * 4 + (c : ℤ)
      = (((y * w + (mirror w ((x : ℤ) + i)).toNat) * 4 + c : ℕ) : ℤ) by
    push_cast [Int.toNat_of_nonneg hm0]
    ring]
  rw [uniformImage_read w h r g b a (mirror w ((x : ℤ) + i)).toNat y c (by omega) hy hc]
  rfl

lemma horizAt_uniform (w h : ℕ) (r g b a sigma : ℝ) (x y c : ℕ)
    (hx : x < w) (hy : y < h) (hc : c < 4) (hhw : halfSize sigma < w) :
    horizAt (uniformImage w h r g b a) sigma x y c = some (chanVal r g b a c) := by
  by_cases h3 : c = 3
  · subst h3
    unfold horizAt
    rw [if_pos rfl]
    exact uniformImage_read w h r g b a x y 3 hx hy (by norm_num)
  · unfold horizAt
    rw [if_neg h3]
    rw [jsum_map_eq_of_some (taps (halfSize sigma))
      (horizTerm (uniformImage w h r g b a) sigma x y c)
      (fun i => chanVal r g b a c * kernelAt sigma i)
      (fun i hi => horizTerm_uniform w h r g b a sigma x y c hx hy hc hhw i hi)]
    rw [List.sum_map_mul_left]
    rw [show ((taps (halfSize sigma)).map (kernelAt sigma)).sum = weightSumAt sigma from rfl]
    rw [weightSumAt_eq_one, scaleAt_eq_one]
    simp [jmulW, mul_one]

lemma vertTerm_uniform (w h : ℕ) (r g b a sigma : ℝ) (x y c : ℕ)
    (hx : x < w) (hy : y < h) (hc : c < 4) (hhw : halfSize sigma < w)
    (hhh : halfSize sigma < h) (j : ℤ) (hj : j ∈ taps (halfSize sigma)) :
    vertTerm (uniformImage w h r g b a) sigma x y c j
      = some (chanVal r g b a c * kernelAt sigma j) := by
  obtain ⟨hj1, hj2⟩ := mem_taps hj
  obtain ⟨hm0, hm1⟩ := mirror_range h y j (halfSize sigma) hy hj1 hj2 hhh
  unfold vertTerm
  rw [show (uniformImage w h r g b a).height = h from rfl,
      show (uniformImage w h r g b a).width = w from rfl]
  rw [show (mirror h ((y : ℤ) + j) * (w : ℤ) + (x : ℤ)) * 4 + (c : ℤ)
      = ((((mirror h ((y : ℤ) + j)).toNat * w + x) * 4 + c : ℕ) : ℤ) by
    push_cast [Int.toNat_of_nonneg hm0]
    ring]
  rw [show tempData (uniformImage w h r g b a) sigma
        (((((mirror h ((y : ℤ) + j)).toNat * w + x) * 4 + c : ℕ)) : ℤ)
      = horizAt (uniformImage w h r g b a) sigma x (mirror h ((y : ℤ) + j)).toNat c from
    tempData_read (uniformImage w h r g b a) sigma x (mirror h ((y : ℤ) + j)).toNat c
      hx (show (mirror h ((y : ℤ) + j)).toNat < h by omega) hc]
  rw [horizAt_uniform w h r g b a sigma x (mirror h ((y : ℤ) + j)).toNat c hx (by omega) hc hhw]
  rfl

lemma vertAt_uniform (w h : ℕ) (r g b a sigma : ℝ) (x y c : ℕ)
    (hx : x < w) (hy : y < h) (hc : c < 4) (hhw : halfSize sigma < w)
    (hhh : halfSize sigma < h)
    (h0 : 0 ≤ chanVal r g b a c) (h1 : chanVal r g b a c ≤ 255) :
    vertAt (uniformImage w h r g b a) sigma x y c = some (chanVal r g b a c) := by
  by_cases h3 : c = 3
  · subst h3
    unfold vertAt
    rw [if_pos rfl]
    rw [show (uniformImage w h r g b a).width = w from rfl]
    rw [uniformImage_read w h r g b a x y 3 hx hy (by norm_num)]
    simp only [uint8Clamp]
    rw [max_eq_right h0, min_eq_right h1]
  · unfold vertAt
    rw [if_neg h3]
    rw [jsum_map_eq_of_some (taps (halfSize sigma))
      (vertTerm (uniformImage w h r g b a) sigma x y c)
      (fun j => chanVal r g b a c * kernelAt sigma j)
      (fun j hj => vertTerm_uniform w h r g b a sigma x y c hx hy hc hhw hhh j hj)]
    rw [List.sum_map_mul_left]
    rw [show ((taps (halfSize sigma)).map (kernelAt sigma)).sum = weightSumAt sigma from rfl]
    rw [weightSumAt_eq_one, scaleAt_eq_one]
    simp only [jmulW, jmax, jmin, Option.map, uint8Clamp]
    rw [mul_one, mul_one]
    rw [max_eq_right h0, min_eq_right h1, max_eq_right h0, min_eq_right h1]

/-- Claim C4 (amended): for every sigma > 0 and every uniform-color
image whose width and height both exceed the kernel half-width, the
separable blur returns the same uniform color at every pixel (the
mirrored sample indices all stay inside the image, every pass averages
the constant, and the final clamp is the identity on [0,255]). -/
theorem C4_blur_uniform (sigma r g b a : ℝ) (w h x y : ℕ)
    (hsig : 0 < sigma) (hw : halfSize sigma < w) (hh : halfSize sigma < h)
    (hx : x < w) (hy : y < h)
    (hr0 : 0 ≤ r) (hr1 : r ≤ 255) (hg0 : 0 ≤ g) (hg1 : g ≤ 255)
    (hb0 : 0 ≤ b) (hb1 : b ≤ 255) (ha0 : 0 ≤ a) (ha1 : a ≤ 255) :
    (applyGaussianBlur (uniformImage w h r g b a) sigma).pix x y 0 = some r
    ∧ (applyGaussianBlur (uniformImage w h r g b a) sigma).pix x y 1 = some g
    ∧ (applyGaussianBlur (uniformImage w h r g b a) sigma).pix x y 2 = some b
    ∧ (applyGaussianBlur (uniformImage w h r g b a) sigma).pix x y 3 = some a := by
  refine ⟨?_, ?_, ?_, ?_⟩
  · rw [applyGaussianBlur_pix (uniformImage w h r g b a) sigma x y 0 hx hy (by norm_num),
      vertAt_uniform w h r g b a sigma x y 0 hx hy (by norm_num) hw hh hr0 hr1]
    rfl
  · rw [applyGaussianBlur_pix (uniformImage w h r g b a) sigma x y 1 hx hy (by norm_num),
      vertAt_uniform w h r g b a sigma x y 1 hx hy (by norm_num) hw hh hg0 hg1]
    rfl
  · rw [applyGaussianBlur_pix (uniformImage w h r g b a) sigma x y 2 hx hy (by norm_num),
      vertAt_uniform w h r g b a sigma x y 2 hx hy (by norm_num) hw hh hb0 hb1]
    rfl
  · rw [applyGaussianBlur_pix (uniformImage w h r g b a) sigma x y 3 hx hy (by norm_num),
      vertAt_uniform w h r g b a sigma x y 3 hx hy (by norm_num) hw hh ha0 ha1]
    rfl

lemma halfSize_one : halfSize 1 = 3 := by
  unfold halfSize kernelSizeOdd kernelSize
  rw [show ⌈(1 : ℝ) * 6⌉ = 6 by
    rw [show (1 : ℝ) * 6 = ((6 : ℤ) : ℝ) by norm_num, Int.ceil_intCast]]
  decide

/-- Witness for C4 at sigma = 1 (half-width 3) on a 4×4 uniform image. -/
theorem C4_blur_uniform_witness :
    0 < (1 : ℝ) ∧ halfSize 1 < 4
    ∧ ((applyGaussianBlur (uniformImage 4 4 10 20 30 40) 1).pix 1 2 0 = some 10
      ∧ (applyGaussianBlur (uniformImage 4 4 10 20 30 40) 1).pix 1 2 1 = some 20
      ∧ (applyGaussianBlur (uniformImage 4 4 10 20 30 40) 1).pix 1 2 2 = some 30
      ∧ (applyGaussianBlur (uniformImage 4 4 10 20 30 40) 1).pix 1 2 3 = some 40) :=
  ⟨by norm_num, by rw [halfSize_one]; norm_num,
   C4_blur_uniform 1 10 20 30 40 4 4 1 2 (by norm_num) (by rw [halfSize_one]; norm_num)
     (by rw [halfSize_one]; norm_num) (by norm_num) (by norm_num)
     (by norm_num) (by norm_num) (by norm_num) (by norm_num)
     (by norm_num) (by norm_num) (by norm_num) (by norm_num)⟩

lemma blur_1x1_zero (v a : ℝ) (c : ℕ) (hc : c < 3) :
    (applyGaussianBlur (uniformImage 1 1 v v v a) 1).pix 0 0 c = some 0 := by
  rw [applyGaussianBlur_pix (uniformImage 1 1 v v v a) 1 0 0 c Nat.one_pos Nat.one_pos
    (by omega)]
  unfold vertAt
  rw [if_neg (by omega : ¬ c = 3)]
  have hnone : jsum ((taps (halfSize 1)).map (vertTerm (uniformImage 1 1 v v v a) 1 0 0 c))
      = none := by
    apply jsum_none
    apply List.mem_map.mpr
    refine ⟨-3, ?_, ?_⟩
    · rw [halfSize_one]
      decide
    · unfold vertTerm
      rw [show (uniformImage 1 1 v v v a).height = 1 from rfl,
          show (uniformImage 1 1 v v v a).width = 1 from rfl]
      rw [show mirror 1 (((0 : ℕ) : ℤ) + (-3 : ℤ)) = -3 by decide]
      rw [show ((-3 : ℤ) * ((1 : ℕ) : ℤ) + ((0 : ℕ) : ℤ)) * 4 + (c : ℤ) = -12 + (c : ℤ) by
        push_cast
        ring]
      rw [show tempData (uniformImage 1 1 v v v a) 1 (-12 + (c : ℤ)) = none by
        unfold tempData
        rw [if_neg]
        intro hcontra
        omega]
      rfl
  rw [hnone]
  rfl

/-- Claim C3 (code evaluation at the failing input): blurring the 1×1
image of value 200 at sigma 1 does not return (200,200,200,255): the
mirror rule reflects the sample offset 1 at x = 0 to index -1 (last
conjunct), every nonzero tap reads out of bounds, the undefined reads
poison the accumulator with NaN, and the `Uint8ClampedArray` stores 0,
so the result pixel is (0, 0, 0, 255). -/
theorem C3_blur_1x1_eval :
    (applyGaussianBlur (uniformImage 1 1 200 200 200 255) 1).pix 0 0 0 = some 0
    ∧ (applyGaussianBlur (uniformImage 1 1 200 200 200 255) 1).pix 0 0 1 = some 0
    ∧ (applyGaussianBlur (uniformImage 1 1 200 200 200 255) 1).pix 0 0 2 = some 0
    ∧ (applyGaussianBlur (uniformImage 1 1 200 200 200 255) 1).pix 0 0 3 = some 255
    ∧ mirror 1 ((0 : ℤ) + 1) = -1 := by
  refine ⟨blur_1x1_zero 200 255 0 (by norm_num), blur_1x1_zero 200 255 1 (by norm_num),
    blur_1x1_zero 200 255 2 (by norm_num), ?_, by decide⟩
  rw [applyGaussianBlur_pix (uniformImage 1 1 200 200 200 255) 1 0 0 3 Nat.one_pos
    Nat.one_pos (by norm_num)]
  unfold vertAt
  rw [if_pos rfl]
  rw [show (uniformImage 1 1 (200 : ℝ) 200 200 255).width = 1 from rfl]
  rw [uniformImage_read 1 1 (200 : ℝ) 200 200 255 0 0 3 Nat.one_pos Nat.one_pos (by norm_num)]
  simp only [uint8Clamp, chanVal]
  norm_num

/-- Claim C4 counterexample: blurring a 1×1 uniform image of color
(100,100,100,255) at sigma 1 does not return the uniform color: the
mirror rule sends every nonzero tap offset out of bounds, the
out-of-bounds reads poison the accumulator, and the stored red channel
is 0, not 100 — so blur invariance fails at this positive size. -/
theorem C4_counterexample :
    (applyGaussianBlur (uniformImage 1 1 100 100 100 255) 1).pix 0 0 0 ≠ some 100 := by
  rw [blur_1x1_zero 100 255 0 (by norm_num)]
  intro hcontra
  exact absurd (Option.some.inj hcontra) (by norm_num)
